import Mathlib

/-!
Verification of the vpgHolland transfer bot (`bot.py`).

The development shallowly embeds the pure logic of the bot:
JSON state handling (`load_state` / `save_state`), the per-feed polling
pipeline of `monitor`, the timestamp formatter `when_str`, and the image
resolvers `probe_image` / `resolve_image_id` / `fetch_logo_from_slug`.
External effects (HTTP, the Discord client, `datetime` parsing and
timezone formatting, `re.search`) enter as explicit function parameters,
so every embedded function is a pure, executable Lean definition.
-/

namespace VpgBot

/-- JSON values, modelling the Python objects produced by `json.load`. -/
inductive JVal where
  | jnull
  | jbool (b : Bool)
  | jint (n : Int)
  | jstr (s : String)
  | jarr (xs : List JVal)
  | jobj (m : List (String × JVal))

/-- Association-list lookup, modelling `d[k]` / `d.get(k)` on a Python dict
(keys are unique and insertion ordered, so first match is the value). -/
def alistGet {α : Type} : List (String × α) → String → Option α
  | [], _ => none
  | (k0, v) :: rest, k => if k0 = k then some v else alistGet rest k

/-- Membership test `k in d` on a dict. -/
def alistHas {α : Type} (l : List (String × α)) (k : String) : Bool :=
  (alistGet l k).isSome

/-- Lookup with default, modelling `d.get(k, d0)`. -/
def alistGetD {α : Type} (l : List (String × α)) (k : String) (d : α) : α :=
  (alistGet l k).getD d

/-- Assignment `d[k] = v` on a dict: overwrite in place if the key exists,
append at the end otherwise. -/
def alistSet {α : Type} : List (String × α) → String → α → List (String × α)
  | [], k, v => [(k, v)]
  | (k0, v0) :: rest, k, v =>
      if k0 = k then (k0, v) :: rest else (k0, v0) :: alistSet rest k v

/-- `d.setdefault(k, v)`: insert `v` at the end only when `k` is absent. -/
def alistSetdefault {α : Type} (l : List (String × α)) (k : String) (v : α) :
    List (String × α) :=
  if alistHas l k then l else l ++ [(k, v)]

/-- The configured feed keys, from the `SOURCES` table of `bot.py`. -/
def SOURCES_keys : List String := ["Holland", "Holland-5v5-next"]

/-- The fresh `last_ids` mapping: every configured feed key at cursor 0. -/
def empty_last_ids : List (String × JVal) :=
  SOURCES_keys.map (fun k => (k, JVal.jint 0))

/-- `_empty_state()` from `bot.py`:
`{"last_ids": {src["key"]: 0 for src in SOURCES}}`. -/
def _empty_state : JVal := .jobj [("last_ids", .jobj empty_last_ids)]

/-- Substring test on strings (Python `needle in hay` for `str`). -/
def strHasSub (hay needle : String) : Bool :=
  decide (needle.data <:+: hay.data)

/-- Python `str.lower()`, character by character (HTTP header values are
ASCII, where `Char.toLower` agrees with Python's lowercasing). -/
def pyLower (s : String) : String := ⟨s.data.map Char.toLower⟩

/-- The Python expression `k in data` for an arbitrary JSON value `data`:
key membership for dicts, element equality for lists, substring test for
strings; raises `TypeError` (modelled as `none`) on the other types. -/
def pyContains : JVal → String → Option Bool
  | .jobj m, k => some (alistHas m k)
  | .jarr xs, k =>
      some (xs.any (fun x => match x with | .jstr t => decide (t = k) | _ => false))
  | .jstr s, k => some (strHasSub s k)
  | _, _ => none

/-- The body of the `try` block of `load_state` in `bot.py`, applied to an
already-parsed JSON value: `none` models an exception escaping to the
`except` handler.  It checks `"last_ids" not in data`, replaces `data` by
`_empty_state()` when absent, then runs
`data["last_ids"].setdefault(src["key"], 0)` for every source. -/
def load_state_try (v : JVal) : Option JVal := do
  let c ← pyContains v "last_ids"
  let data := if c then v else _empty_state
  match data with
  | .jobj m =>
      match alistGet m "last_ids" with
      | some (.jobj inner) =>
          let inner2 :=
            SOURCES_keys.foldl (fun acc k => alistSetdefault acc k (.jint 0)) inner
          some (.jobj (alistSet m "last_ids" (.jobj inner2)))
      | _ => none
  | _ => none

/-- `load_state` from `bot.py`.  The input is `none` when opening or JSON
parsing of the state file fails, `some v` when the file parsed to `v`; any
exception inside the `try` body also falls back to `_empty_state()`. -/
def load_state (input : Option JVal) : JVal :=
  match input with
  | none => _empty_state
  | some v => (load_state_try v).getD _empty_state

/-- `save_state` from `bot.py`, at the level of file content: a successful
`json.dump(state, f)` persists exactly the state value. -/
def save_state (st : JVal) : JVal := st

/-- A parsed state file whose shape the `try` body of `load_state` accepts
without raising: a JSON object whose `"last_ids"` entry is an object. -/
def good_shape : JVal → Bool
  | .jobj m =>
      match alistGet m "last_ids" with
      | some (.jobj _) => true
      | _ => false
  | _ => false

/-- A well-formed persisted cursor file: `good_shape`, and the `"last_ids"`
object already carries every configured feed key (as any file written by
`save_state` after a `load_state` does). -/
def well_formed : JVal → Bool
  | .jobj m =>
      match alistGet m "last_ids" with
      | some (.jobj inner) => SOURCES_keys.all (fun k => alistHas inner k)
      | _ => false
  | _ => false

/-- The `setdefault` loop of `load_state` over the configured keys. -/
def setdefault_all (keys : List String) (l : List (String × JVal)) :
    List (String × JVal) :=
  keys.foldl (fun acc k => alistSetdefault acc k (.jint 0)) l

/-- The `"last_ids"` object of a state value, when present. -/
def state_last_ids (v : JVal) : Option (List (String × JVal)) :=
  match v with
  | .jobj m =>
      match alistGet m "last_ids" with
      | some (.jobj inner) => some inner
      | _ => none
  | _ => none

/-! ## Transfer records and the polling pipeline of `monitor` -/

/-- A feed record, restricted to the fields the polling pipeline inspects.
`id = none` models a record whose `id` field is missing or for which
`int(...)` raises; `datetime` is the optional ISO timestamp string. -/
structure Record where
  id : Option Int
  datetime : Option String := none
deriving DecidableEq

/-- `rid` from `bot.py`: `int(x.get("id", 0))`, with 0 on any failure. -/
def rid (r : Record) : Int := r.id.getD 0

/-- The comparison key of `new_items.sort(key=rid)`. -/
def ridLe (a b : Record) : Prop := rid a ≤ rid b

instance : DecidableRel ridLe := fun a b =>
  inferInstanceAs (Decidable (rid a ≤ rid b))

instance : IsTotal Record ridLe := ⟨fun a b => le_total (rid a) (rid b)⟩

instance : IsTrans Record ridLe := ⟨fun _ _ _ h1 h2 => le_trans h1 h2⟩

/-- Lines 224–228 of `bot.py`:
`new_items = [r for r in rows if rid(r) > last_seen]; new_items.sort(key=rid)`.
Python's `list.sort` is a stable sort; `insertionSort` is one as well. -/
def poll_new_items (rows : List Record) (last_seen : Int) : List Record :=
  List.insertionSort ridLe (rows.filter (fun r => decide (rid r > last_seen)))

/-- The cursor produced by the notify loop:
`for r in new_items: ...; last_seen = max(last_seen, rid(r))`. -/
def poll_cursor (last_seen : Int) (new_items : List Record) : Int :=
  new_items.foldl (fun c r => max c (rid r)) last_seen

/-- Outcome of parsing the response body (`await resp.json()` plus
`payload.get("data", [])`). -/
inductive Body where
  | parseFail
  | parsed (rows : List Record)

/-- Outcome of `session.get(src["api"], ...)` for one feed:
`err` is a transport error (or any exception raised while reading the
response), otherwise a status code and a body. -/
inductive Fetch where
  | err
  | ok (status : Nat) (body : Body)

/-- One feed of a polling cycle: its key, the fetch outcome, and for each
index `i` whether the `i`-th notification attempt completes.  `true` covers
both a successful embed send and a caught embed failure whose plain-text
fallback succeeds; `false` models the fallback send itself raising, which
escapes to the per-feed `except` handler. -/
structure FeedInput where
  key : String
  fetch : Fetch
  sendOk : Nat → Bool

/-- The in-memory `state["last_ids"]` dict during a cycle. -/
def StateMap : Type := List (String × Int)

/-- The notify loop of `monitor` (lines 229–239): sends each new item in
order, tracking `last_seen = max(last_seen, rid(r))` after each completed
attempt.  Result `(some last, sent)` means the loop finished; `(none, sent)`
means an exception escaped after notifying the prefix `sent`. -/
def run_sends (sendOk : Nat → Bool) : Nat → Int → List Record →
    Option Int × List Record
  | _, last, [] => (some last, [])
  | idx, last, r :: rest =>
      if sendOk idx then
        let res := run_sends sendOk (idx + 1) (max last (rid r)) rest
        (res.1, r :: res.2)
      else (none, [])

/-- The body of `for src in SOURCES` in `monitor` for one feed: returns the
updated `last_ids` map and the list of records notified for this feed.
All failure paths (`continue` or a caught exception) leave the map
untouched; only a completed notify loop assigns
`state["last_ids"][src["key"]] = last_seen`. -/
def monitor_feed (st : StateMap) (fi : FeedInput) : StateMap × List Record :=
  let last_seen := alistGetD st fi.key 0
  match fi.fetch with
  | .err => (st, [])
  | .ok status body =>
      if status ≠ 200 then (st, [])
      else
        match body with
        | .parseFail => (st, [])
        | .parsed rows =>
            if rows.isEmpty then (st, [])
            else
              let new := poll_new_items rows last_seen
              if new.isEmpty then (st, [])
              else
                let res := run_sends fi.sendOk 0 last_seen new
                match res.1 with
                | some last => (alistSet st fi.key last, res.2)
                | none => (st, res.2)

/-- One full pass of the `for src in SOURCES` loop over a list of feeds,
threading the `last_ids` map and collecting every notified record. -/
def monitor_cycle (st : StateMap) : List FeedInput → StateMap × List Record
  | [] => (st, [])
  | fi :: rest =>
      let p := monitor_feed st fi
      let q := monitor_cycle p.1 rest
      (q.1, p.2 ++ q.2)

/-- A fetch outcome on which `monitor` skips the feed before filtering:
transport error, non-200 status, or unparsable body. -/
def fetch_failed : Fetch → Bool
  | .err => true
  | .ok _ .parseFail => true
  | .ok status (.parsed _) => decide (status ≠ 200)

/-! ## Timestamp formatting -/

/-- `when_str` from `bot.py`.  The external `datetime` machinery enters as
parameters: `fromiso` models `datetime.fromisoformat` (partial, `none` when
it raises) and `fmtAms` models
`.astimezone(ZoneInfo("Europe/Amsterdam")).strftime("%Y-%m-%d %H:%M:%S %Z")`
(total on parsed values).  Note the `except` branch returns `ts or
"unknown"`, which is the original string whenever `ts` is non-empty. -/
def when_str {α : Type} (fromiso : String → Option α) (fmtAms : α → String)
    (ts : Option String) : String :=
  match ts with
  | none => "unknown"
  | some s =>
      if s = "" then "unknown"
      else
        match fromiso (s.replace "Z" "+00:00") with
        | some dt => fmtAms dt
        | none => s

/-- The footer text set by `build_embed`:
`emb.set_footer(text=when_str(ts))` with `ts = r.get("datetime")`. -/
def embed_footer {α : Type} (fromiso : String → Option α) (fmtAms : α → String)
    (r : Record) : String :=
  when_str fromiso fmtAms r.datetime

/-! ## Image resolution -/

/-- A completed HTTP HEAD probe: status, `content-type` header (empty string
when the header is absent), and the final post-redirect URL `r.url`. -/
structure ProbeResp where
  status : Nat
  contentType : String
  finalUrl : String
deriving DecidableEq

/-- `probe_image` from `bot.py`.  `net` models
`session.head(url, timeout=8, allow_redirects=True)`: `none` is a raised
exception (timeout, connection error), `some` a completed response. -/
def probe_image (net : String → Option ProbeResp) (url : Option String) :
    Option String :=
  match url with
  | none => none
  | some u =>
      if u = "" then none
      else
        match net u with
        | none => none
        | some r =>
            let ct := pyLower r.contentType
            if r.status == 200 &&
                (strHasSub ct "image" || ct == "application/octet-stream") then
              some r.finalUrl
            else none

/-- The candidate CDN URLs of `resolve_image_id`, in source order. -/
def candidate_urls (image_id : String) : List String :=
  [ "https://virtualprogaming.com/media/" ++ image_id ++ ".png"
  , "https://virtualprogaming.com/media/" ++ image_id ++ ".webp"
  , "https://api.virtualprogaming.com/public/media/" ++ image_id ++ ".png"
  , "https://api.virtualprogaming.com/public/media/" ++ image_id ++ ".webp" ]

/-- `resolve_image_id` from `bot.py`, returning the result together with the
updated `imageid_cache`. -/
def resolve_image_id (net : String → Option ProbeResp)
    (cache : List (String × String)) (image_id : Option String) :
    Option String × List (String × String) :=
  match image_id with
  | none => (none, cache)
  | some i =>
      if i = "" then (none, cache)
      else
        match alistGet cache i with
        | some v => (some v, cache)
        | none =>
            match (candidate_urls i).findSome?
                (fun u => probe_image net (some u)) with
            | some ok => (some ok, alistSet cache i ok)
            | none => (none, cache)

/-- Outcome of `session.get(page_url, timeout=12)` plus `await resp.text()`
for a team page: `err` is any raised exception, otherwise status and HTML. -/
inductive PageFetch where
  | err
  | ok (status : Nat) (html : String)

/-- The media-URL fallback step of `fetch_logo_from_slug` (its step 2):
`mediaSearch` models `re.search` for the `/media/...` image URL pattern,
returning the matched URL when the pattern occurs in the HTML. -/
def slug_media_step (net : String → Option ProbeResp)
    (mediaSearch : String → Option String) (cache : List (String × String))
    (sl html : String) : Option String × List (String × String) :=
  match mediaSearch html with
  | some u =>
      match probe_image net (some u) with
      | some ok => (some ok, alistSet cache sl ok)
      | none => (none, cache)
  | none => (none, cache)

/-- `fetch_logo_from_slug` from `bot.py`, returning the result together with
the updated `logo_cache`.  `pageNet` models the page fetch, `ogSearch` the
`re.search` for the `og:image` meta tag (returning its `content` group). -/
def fetch_logo_from_slug (net : String → Option ProbeResp)
    (pageNet : String → PageFetch) (ogSearch mediaSearch : String → Option String)
    (cache : List (String × String)) (slug : Option String) :
    Option String × List (String × String) :=
  match slug with
  | none => (none, cache)
  | some sl =>
      if sl = "" then (none, cache)
      else
        match alistGet cache sl with
        | some v => (some v, cache)
        | none =>
            match pageNet ("https://virtualprogaming.com/team/" ++ sl) with
            | .err => (none, cache)
            | .ok status html =>
                if status ≠ 200 then (none, cache)
                else
                  match ogSearch html with
                  | some og =>
                      match probe_image net (some og) with
                      | some ok => (some ok, alistSet cache sl ok)
                      | none => slug_media_step net mediaSearch cache sl html
                  | none => slug_media_step net mediaSearch cache sl html

/-- A concrete probe backend for exercising the resolvers on small inputs:
the second CDN domain serves `abc.png` behind a redirect with an
upper-cased content-type header, the first domain answers 404, and every
other URL times out. -/
def probe_net_example : String → Option ProbeResp := fun u =>
  if u = "https://api.virtualprogaming.com/public/media/abc.png" then
    some ⟨200, "IMAGE/png", "https://cdn.example/final.png"⟩
  else if u = "https://virtualprogaming.com/media/abc.png" then
    some ⟨404, "text/html", u⟩
  else none

/-! ## Helper lemmas on association lists -/

theorem alistGet_set_self {α : Type} (l : List (String × α)) (k : String) (v : α) :
    alistGet (alistSet l k v) k = some v := by
  induction l with
  | nil => simp [alistSet, alistGet]
  | cons p rest ih =>
      obtain ⟨k0, v0⟩ := p
      by_cases h : k0 = k <;> simp [alistSet, alistGet, h, ih]

theorem alistGet_set_ne {α : Type} (l : List (String × α)) (k k2 : String)
    (v : α) (h : k ≠ k2) : alistGet (alistSet l k v) k2 = alistGet l k2 := by
  induction l with
  | nil => simp [alistSet, alistGet, h]
  | cons p rest ih =>
      obtain ⟨k0, v0⟩ := p
      by_cases h0 : k0 = k
      · subst h0; simp [alistSet, alistGet, h]
      · simp [alistSet, alistGet, h0, ih]

theorem alistSet_of_get_eq {α : Type} (l : List (String × α)) (k : String)
    (v : α) (h : alistGet l k = some v) : alistSet l k v = l := by
  induction l with
  | nil => simp [alistGet] at h
  | cons p rest ih =>
      obtain ⟨k0, v0⟩ := p
      by_cases h0 : k0 = k
      · subst h0
        simp [alistGet] at h
        simp [alistSet, h]
      · simp [alistGet, h0] at h
        simp [alistSet, h0, ih h]

theorem alistGet_append_of_some {α : Type} (l l2 : List (String × α))
    (k : String) (w : α) (h : alistGet l k = some w) :
    alistGet (l ++ l2) k = some w := by
  induction l with
  | nil => simp [alistGet] at h
  | cons p rest ih =>
      obtain ⟨k0, v0⟩ := p
      by_cases h0 : k0 = k
      · subst h0; simp [alistGet] at h ⊢; exact h
      · simp [alistGet, h0] at h ⊢; exact ih h

theorem alistGet_setdefault_of_some {α : Type} (l : List (String × α))
    (k k2 : String) (v w : α) (h : alistGet l k = some w) :
    alistGet (alistSetdefault l k2 v) k = some w := by
  unfold alistSetdefault
  by_cases hh : alistHas l k2
  · simp [hh, h]
  · simp [hh]
    exact alistGet_append_of_some l [(k2, v)] k w h

theorem alistGet_append_of_none {α : Type} (l l2 : List (String × α))
    (k : String) (h : alistGet l k = none) :
    alistGet (l ++ l2) k = alistGet l2 k := by
  induction l with
  | nil => simp
  | cons p rest ih =>
      obtain ⟨k0, v0⟩ := p
      by_cases h0 : k0 = k
      · subst h0; simp [alistGet] at h
      · simp [alistGet, h0] at h ⊢
        exact ih h

theorem alistGet_setdefault_self_of_none {α : Type} (l : List (String × α))
    (k : String) (v : α) (h : alistGet l k = none) :
    alistGet (alistSetdefault l k v) k = some v := by
  unfold alistSetdefault
  have hh : alistHas l k = false := by simp [alistHas, h]
  rw [hh]
  simp only [Bool.false_eq_true, if_false]
  rw [alistGet_append_of_none l _ k h]
  simp [alistGet]

theorem alistHas_setdefault_self {α : Type} (l : List (String × α))
    (k : String) (v : α) : alistHas (alistSetdefault l k v) k = true := by
  rcases h : alistGet l k with _ | w
  · simp [alistHas, alistGet_setdefault_self_of_none l k v h]
  · simp [alistHas, alistGet_setdefault_of_some l k k v w h]

theorem alistHas_setdefault_mono {α : Type} (l : List (String × α))
    (k k2 : String) (v : α) (h : alistHas l k = true) :
    alistHas (alistSetdefault l k2 v) k = true := by
  rcases hg : alistGet l k with _ | w
  · simp [alistHas, hg] at h
  · simp [alistHas, alistGet_setdefault_of_some l k k2 v w hg]

theorem setdefault_all_has_mono (keys : List String) (l : List (String × JVal))
    (k : String) (h : alistHas l k = true) :
    alistHas (setdefault_all keys l) k = true := by
  induction keys generalizing l with
  | nil => simpa [setdefault_all]
  | cons k0 rest ih =>
      unfold setdefault_all
      simp only [List.foldl_cons]
      exact ih _ (alistHas_setdefault_mono l k k0 _ h)

theorem setdefault_all_has (keys : List String) (l : List (String × JVal))
    (k : String) (hk : k ∈ keys) : alistHas (setdefault_all keys l) k = true := by
  induction keys generalizing l with
  | nil => simp at hk
  | cons k0 rest ih =>
      unfold setdefault_all
      simp only [List.foldl_cons]
      by_cases h0 : k0 = k
      · subst h0
        exact setdefault_all_has_mono rest _ k0 (alistHas_setdefault_self l k0 _)
      · rcases List.mem_cons.1 hk with h1 | h1
        · exact absurd h1.symm h0
        · exact ih _ h1

theorem setdefault_all_get_of_some (keys : List String)
    (l : List (String × JVal)) (k : String) (w : JVal)
    (h : alistGet l k = some w) :
    alistGet (setdefault_all keys l) k = some w := by
  induction keys generalizing l with
  | nil => simpa [setdefault_all]
  | cons k0 rest ih =>
      unfold setdefault_all
      simp only [List.foldl_cons]
      exact ih _ (alistGet_setdefault_of_some l k k0 _ w h)

theorem setdefault_all_get_of_none (keys : List String)
    (l : List (String × JVal)) (k : String) (hk : k ∈ keys)
    (h : alistGet l k = none) :
    alistGet (setdefault_all keys l) k = some (.jint 0) := by
  induction keys generalizing l with
  | nil => simp at hk
  | cons k0 rest ih =>
      unfold setdefault_all
      simp only [List.foldl_cons]
      by_cases h0 : k0 = k
      · subst h0
        exact setdefault_all_get_of_some rest _ k0 _
          (alistGet_setdefault_self_of_none l k0 _ h)
      · rcases List.mem_cons.1 hk with h1 | h1
        · exact absurd h1.symm h0
        · have hg : alistGet (alistSetdefault l k0 (.jint 0)) k = none := by
            unfold alistSetdefault
            by_cases hh : alistHas l k0
            · simpa [hh]
            · rw [if_neg (by simp [hh]), alistGet_append_of_none l _ k h]
              simp [alistGet, h0]
          exact ih _ h1 hg

theorem setdefault_all_of_all_has (keys : List String)
    (l : List (String × JVal)) (h : ∀ k ∈ keys, alistHas l k = true) :
    setdefault_all keys l = l := by
  induction keys with
  | nil => rfl
  | cons k0 rest ih =>
      unfold setdefault_all
      simp only [List.foldl_cons]
      have h0 : alistHas l k0 = true := h k0 (by simp)
      unfold alistSetdefault
      rw [h0]
      exact ih fun k hk => h k (by simp [hk])

/-! ## Characterization of `load_state` -/

theorem load_state_good (m : List (String × JVal))
    (inner : List (String × JVal))
    (h : alistGet m "last_ids" = some (.jobj inner)) :
    load_state (some (.jobj m)) =
      .jobj (alistSet m "last_ids" (.jobj (setdefault_all SOURCES_keys inner))) := by
  have hh : alistHas m "last_ids" = true := by simp [alistHas, h]
  simp [load_state, load_state_try, pyContains, hh, h, setdefault_all]

theorem load_state_not_good (v : JVal) (h : good_shape v = false) :
    load_state (some v) = _empty_state := by
  cases v with
  | jnull => rfl
  | jbool b => rfl
  | jint n => rfl
  | jstr s =>
      cases hs : strHasSub s "last_ids" <;>
        simp [load_state, load_state_try, pyContains, hs, _empty_state,
          empty_last_ids, SOURCES_keys, alistGet, alistHas, alistSet,
          alistSetdefault]
  | jarr xs =>
      cases ha : xs.any (fun x => match x with | .jstr t => decide (t = "last_ids") | _ => false) <;>
        simp [load_state, load_state_try, pyContains, ha, _empty_state,
          empty_last_ids, SOURCES_keys, alistGet, alistHas, alistSet,
          alistSetdefault]
  | jobj m =>
      rcases hg : alistGet m "last_ids" with _ | w
      · have hh : alistHas m "last_ids" = false := by simp [alistHas, hg]
        simp [load_state, load_state_try, pyContains, hh, hg, _empty_state,
          empty_last_ids, SOURCES_keys, alistGet, alistHas, alistSet,
          alistSetdefault]
      · have hh : alistHas m "last_ids" = true := by simp [alistHas, hg]
        cases w with
        | jobj inner => simp [good_shape, hg] at h
        | jnull => simp [load_state, load_state_try, pyContains, hh, hg]
        | jbool b => simp [load_state, load_state_try, pyContains, hh, hg]
        | jint n => simp [load_state, load_state_try, pyContains, hh, hg]
        | jstr s => simp [load_state, load_state_try, pyContains, hh, hg]
        | jarr xs => simp [load_state, load_state_try, pyContains, hh, hg]

/-! ## Lemmas on the polling pipeline -/

theorem run_sends_all_ok (items : List Record) :
    ∀ idx last, run_sends (fun _ => true) idx last items =
      (some (poll_cursor last items), items) := by
  induction items with
  | nil => intro idx last; rfl
  | cons r rest ih =>
      intro idx last
      simp [run_sends, poll_cursor, ih (idx + 1) (max last (rid r)),
        List.foldl_cons]

theorem run_sends_fst_ge (sendOk : Nat → Bool) (items : List Record) :
    ∀ idx last v, (run_sends sendOk idx last items).1 = some v → last ≤ v := by
  induction items with
  | nil =>
      intro idx last v h
      simp [run_sends] at h
      omega
  | cons r rest ih =>
      intro idx last v h
      by_cases hs : sendOk idx
      · simp [run_sends, hs] at h
        exact le_trans (le_max_left _ _) (ih (idx + 1) (max last (rid r)) v h)
      · simp [run_sends, hs] at h

theorem poll_cursor_le (last : Int) (items : List Record) :
    last ≤ poll_cursor last items := by
  induction items generalizing last with
  | nil => simp [poll_cursor]
  | cons r rest ih =>
      calc last ≤ max last (rid r) := le_max_left _ _
        _ ≤ poll_cursor (max last (rid r)) rest := ih _
        _ = poll_cursor last (r :: rest) := by simp [poll_cursor]

/-- Records whose id is at most the cursor do not change the running max:
folding over the filtered list equals folding over the full list. -/
theorem poll_cursor_filter (C : Int) (rows : List Record) :
    ∀ acc, C ≤ acc →
      poll_cursor acc (rows.filter (fun r => decide (rid r > C))) =
        poll_cursor acc rows := by
  induction rows with
  | nil => intro acc _; rfl
  | cons r rest ih =>
      intro acc hacc
      by_cases hr : rid r > C
      · simp only [List.filter_cons, decide_eq_true hr, if_true, poll_cursor,
          List.foldl_cons]
        exact ih (max acc (rid r)) (le_trans hacc (le_max_left _ _))
      · have hle : rid r ≤ acc := le_trans (not_lt.1 hr) hacc
        have hmax : max acc (rid r) = acc := max_eq_left hle
        simp only [List.filter_cons, poll_cursor, List.foldl_cons, hmax]
        rw [if_neg (by simpa using hr)]
        exact ih acc hacc

theorem poll_cursor_perm (l1 l2 : List Record) (p : l1.Perm l2) (acc : Int) :
    poll_cursor acc l1 = poll_cursor acc l2 := by
  unfold poll_cursor
  exact p.foldl_eq' (fun x _ y _ z => Max.right_comm z (rid x) (rid y)) acc

/-- The sorted new-items list of one pass folds to the same cursor as the
raw rows: `max(C, max of the ids in R)`. -/
theorem poll_cursor_new_items (C : Int) (rows : List Record) :
    poll_cursor C (poll_new_items rows C) = poll_cursor C rows := by
  unfold poll_new_items
  rw [poll_cursor_perm _ _ (List.perm_insertionSort ridLe _) C]
  exact poll_cursor_filter C rows C le_rfl

theorem alistGetD_set_self (l : StateMap) (k : String) (v : Int) :
    alistGetD (alistSet l k v) k 0 = v := by
  simp [alistGetD, alistGet_set_self]

theorem alistGetD_set_ne (l : StateMap) (k k2 : String) (v : Int)
    (h : k ≠ k2) : alistGetD (alistSet l k v) k2 0 = alistGetD l k2 0 := by
  simp [alistGetD, alistGet_set_ne l k k2 v h]

/-- A single feed pass never decreases any cursor entry. -/
theorem monitor_feed_mono (st : StateMap) (fi : FeedInput) (k : String) :
    alistGetD st k 0 ≤ alistGetD (monitor_feed st fi).1 k 0 := by
  obtain ⟨key, fetch, sendOk⟩ := fi
  cases fetch with
  | err => simp [monitor_feed]
  | ok status body =>
      by_cases hs : status = 200
      · cases body with
        | parseFail => simp [monitor_feed, hs]
        | parsed rows =>
            by_cases he : rows.isEmpty
            · simp [monitor_feed, hs, he]
            · by_cases hn : (poll_new_items rows (alistGetD st key 0)).isEmpty
              · simp [monitor_feed, hs, he, hn]
              · rcases hr : (run_sends sendOk 0 (alistGetD st key 0)
                    (poll_new_items rows (alistGetD st key 0))).1 with _ | last
                · simp [monitor_feed, hs, he, hn, hr]
                · have hle : alistGetD st key 0 ≤ last :=
                    run_sends_fst_ge sendOk _ 0 _ last hr
                  by_cases hk : key = k
                  · subst hk
                    simp [monitor_feed, hs, he, hn, hr, alistGetD_set_self, hle]
                  · simp [monitor_feed, hs, he, hn, hr,
                      alistGetD_set_ne st key k last hk]
      · cases body <;> simp [monitor_feed, hs]

/-- A full cycle never decreases any cursor entry. -/
theorem monitor_cycle_mono (feeds : List FeedInput) (st : StateMap)
    (k : String) : alistGetD st k 0 ≤ alistGetD (monitor_cycle st feeds).1 k 0 := by
  induction feeds generalizing st with
  | nil => simp [monitor_cycle]
  | cons fi rest ih =>
      calc alistGetD st k 0 ≤ alistGetD (monitor_feed st fi).1 k 0 :=
            monitor_feed_mono st fi k
        _ ≤ alistGetD (monitor_cycle (monitor_feed st fi).1 rest).1 k 0 :=
            ih _
        _ = alistGetD (monitor_cycle st (fi :: rest)).1 k 0 := by
            simp [monitor_cycle]

/-- A feed whose fetch fails is skipped: no state change, no notification. -/
theorem monitor_feed_failed (st : StateMap) (fi : FeedInput)
    (h : fetch_failed fi.fetch = true) : monitor_feed st fi = (st, []) := by
  obtain ⟨key, fetch, sendOk⟩ := fi
  cases fetch with
  | err => rfl
  | ok status body =>
      cases body with
      | parseFail => by_cases hs : status = 200 <;> simp [monitor_feed, hs]
      | parsed rows =>
          simp [fetch_failed] at h
          simp [monitor_feed, h]

/-- Dropping a failed feed anywhere in the cycle changes nothing: the other
feeds are processed exactly as before. -/
theorem monitor_cycle_skips_failed (fi : FeedInput)
    (h : fetch_failed fi.fetch = true) (pre : List FeedInput) :
    ∀ (st : StateMap) (post : List FeedInput),
      monitor_cycle st (pre ++ fi :: post) = monitor_cycle st (pre ++ post) := by
  induction pre with
  | nil =>
      intro st post
      simp [monitor_cycle, monitor_feed_failed st fi h]
  | cons g rest ih =>
      intro st post
      simp [monitor_cycle, ih]

theorem poll_cursor_of_all_le (rows : List Record) (C : Int)
    (h : ∀ r ∈ rows, rid r ≤ C) : poll_cursor C rows = C := by
  induction rows with
  | nil => rfl
  | cons r rest ih =>
      have hmax : max C (rid r) = C := max_eq_left (h r (by simp))
      simp only [poll_cursor, List.foldl_cons, hmax]
      exact ih fun r2 h2 => h r2 (by simp [h2])

/-- On a successful fetch where every notification attempt completes, the
records sent for the feed are exactly the sorted new items. -/
theorem monitor_feed_ok_sent (st : StateMap) (key : String) (rows : List Record) :
    (monitor_feed st ⟨key, .ok 200 (.parsed rows), fun _ => true⟩).2 =
      poll_new_items rows (alistGetD st key 0) := by
  by_cases he : rows.isEmpty
  · have : rows = [] := List.isEmpty_iff.1 he
    subst this
    rfl
  · by_cases hn : (poll_new_items rows (alistGetD st key 0)).isEmpty
    · rw [List.isEmpty_iff.1 hn]
      simp [monitor_feed, he, hn]
    · simp [monitor_feed, he, hn, run_sends_all_ok]

/-- On the same pass, the feed's cursor entry ends at
`max(C, max of the ids in rows)`, folded as `poll_cursor`. -/
theorem monitor_feed_ok_cursor (st : StateMap) (key : String) (rows : List Record) :
    alistGetD (monitor_feed st ⟨key, .ok 200 (.parsed rows), fun _ => true⟩).1 key 0 =
      poll_cursor (alistGetD st key 0) rows := by
  by_cases he : rows.isEmpty
  · have : rows = [] := List.isEmpty_iff.1 he
    subst this
    rfl
  · by_cases hn : (poll_new_items rows (alistGetD st key 0)).isEmpty
    · have hc : poll_cursor (alistGetD st key 0) rows = alistGetD st key 0 := by
        rw [← poll_cursor_new_items, List.isEmpty_iff.1 hn]
        rfl
      simp [monitor_feed, he, hn, hc]
    · simp [monitor_feed, he, hn, run_sends_all_ok, alistGetD_set_self,
        poll_cursor_new_items]

/-! ## Shape inversions and probe lemmas -/

theorem exists_of_good_shape (v : JVal) (h : good_shape v = true) :
    ∃ m inner, v = .jobj m ∧ alistGet m "last_ids" = some (.jobj inner) := by
  cases v with
  | jobj m =>
      rcases hg : alistGet m "last_ids" with _ | w
      · simp [good_shape, hg] at h
      · cases w with
        | jobj inner => exact ⟨m, inner, rfl, hg⟩
        | jnull => simp [good_shape, hg] at h
        | jbool b => simp [good_shape, hg] at h
        | jint n => simp [good_shape, hg] at h
        | jstr s => simp [good_shape, hg] at h
        | jarr xs => simp [good_shape, hg] at h
  | jnull => simp [good_shape] at h
  | jbool b => simp [good_shape] at h
  | jint n => simp [good_shape] at h
  | jstr s => simp [good_shape] at h
  | jarr xs => simp [good_shape] at h

theorem exists_of_well_formed (v : JVal) (h : well_formed v = true) :
    ∃ m inner, v = .jobj m ∧ alistGet m "last_ids" = some (.jobj inner)
      ∧ ∀ k ∈ SOURCES_keys, alistHas inner k = true := by
  cases v with
  | jobj m =>
      rcases hg : alistGet m "last_ids" with _ | w
      · simp [well_formed, hg] at h
      · cases w with
        | jobj inner =>
            refine ⟨m, inner, rfl, hg, ?_⟩
            simp only [well_formed, hg] at h
            exact fun k hk => List.all_eq_true.1 h k hk
        | jnull => simp [well_formed, hg] at h
        | jbool b => simp [well_formed, hg] at h
        | jint n => simp [well_formed, hg] at h
        | jstr s => simp [well_formed, hg] at h
        | jarr xs => simp [well_formed, hg] at h
  | jnull => simp [well_formed] at h
  | jbool b => simp [well_formed] at h
  | jint n => simp [well_formed] at h
  | jstr s => simp [well_formed] at h
  | jarr xs => simp [well_formed] at h

theorem append3_ne_empty (pre mid suf : String) (h : 0 < pre.length) :
    pre ++ mid ++ suf ≠ "" := by
  intro he
  have hl := congrArg String.length he
  simp only [String.length_append] at hl
  have : ("" : String).length = 0 := rfl
  omega

theorem probe_image_of_ne (net : String → Option ProbeResp) (u : String)
    (hu : u ≠ "") :
    probe_image net (some u) =
      match net u with
      | none => none
      | some r =>
          if r.status == 200 &&
              (strHasSub (pyLower r.contentType) "image" ||
                pyLower r.contentType == "application/octet-stream") then
            some r.finalUrl
          else none := by
  simp [probe_image, hu]

theorem resolve_image_id_fst (net : String → Option ProbeResp)
    (cache : List (String × String)) (i : String) (hne : i ≠ "")
    (hmiss : alistGet cache i = none) :
    (resolve_image_id net cache (some i)).1 =
      (candidate_urls i).findSome? (fun u => probe_image net (some u)) := by
  rcases hfs : (candidate_urls i).findSome? (fun u => probe_image net (some u))
      with _ | ok <;> simp [resolve_image_id, hne, hmiss, hfs]

/-! ## Claim theorems -/

/-- Claim C1: one polling pass over a feed with stored cursor `C` notifies
exactly the fetched records whose id is strictly greater than `C`, in
ascending id order, and leaves the feed's cursor at `max(C, max of the ids
in the rows)` (so `C` is unchanged when the rows are empty or every id is
at most `C`); concretely, ids `[3,7,5]` with cursor 4 notify `[5,7]` and
end at cursor 7. -/
theorem monitor_pass_notifies_new_ascending (st : StateMap) (key : String)
    (rows : List Record) :
    ((monitor_feed st ⟨key, .ok 200 (.parsed rows), fun _ => true⟩).2).Perm
        (rows.filter (fun r => decide (rid r > alistGetD st key 0)))
    ∧ List.Sorted ridLe
        (monitor_feed st ⟨key, .ok 200 (.parsed rows), fun _ => true⟩).2
    ∧ alistGetD (monitor_feed st ⟨key, .ok 200 (.parsed rows), fun _ => true⟩).1
        key 0 = poll_cursor (alistGetD st key 0) rows
    ∧ ((∀ r ∈ rows, rid r ≤ alistGetD st key 0) →
        alistGetD (monitor_feed st ⟨key, .ok 200 (.parsed rows), fun _ => true⟩).1
          key 0 = alistGetD st key 0)
    ∧ (monitor_feed [("Holland", 4)]
        ⟨"Holland", .ok 200 (.parsed [⟨some 3, none⟩, ⟨some 7, none⟩, ⟨some 5, none⟩]),
          fun _ => true⟩).2.map rid = [5, 7]
    ∧ alistGetD (monitor_feed [("Holland", 4)]
        ⟨"Holland", .ok 200 (.parsed [⟨some 3, none⟩, ⟨some 7, none⟩, ⟨some 5, none⟩]),
          fun _ => true⟩).1 "Holland" 0 = 7 := by
  refine ⟨?_, ?_, monitor_feed_ok_cursor st key rows, ?_, by decide, by decide⟩
  · rw [monitor_feed_ok_sent]
    exact List.perm_insertionSort ridLe _
  · rw [monitor_feed_ok_sent]
    exact List.sorted_insertionSort ridLe _
  · intro h
    rw [monitor_feed_ok_cursor st key rows, poll_cursor_of_all_le rows _ h]

/-- Witness for C1: a pass where every fetched id is at most the stored
cursor leaves the cursor unchanged. -/
theorem monitor_pass_notifies_new_ascending_witness :
    alistGetD (monitor_feed [("Holland", 9)]
      ⟨"Holland", .ok 200 (.parsed [⟨some 3, none⟩]), fun _ => true⟩).1
      "Holland" 0 = 9 :=
  (monitor_pass_notifies_new_ascending [("Holland", 9)] "Holland"
    [⟨some 3, none⟩]).2.2.2.1 (by decide)

/-- Claim C2 counterexample: loading the legacy single-feed file
`{"last_id": 5}` does NOT preserve the legacy cursor value; `load_state`
replaces the whole object by `_empty_state()` (its compatibility branch
checks only that `"last_ids"` is absent and discards `"last_id"`), so every
feed's cursor comes back 0, not 5. -/
theorem load_state_legacy_value_lost :
    load_state (some (.jobj [("last_id", .jint 5)])) = _empty_state
    ∧ (state_last_ids (load_state (some (.jobj [("last_id", .jint 5)])))).map
        (fun i => alistGet i "Holland") = some (some (.jint 0))
    ∧ (5 : Int) ≠ 0 :=
  ⟨rfl, rfl, by decide⟩

/-- Claim C2 as amended: a legacy single-feed file is normalized into the
multi-feed mapping, but with data loss — whatever the legacy cursor value
`n` was, the result is exactly the empty state with every feed at 0. -/
theorem load_state_legacy_normalized_to_zero (n : Int) :
    load_state (some (.jobj [("last_id", .jint n)])) = _empty_state := rfl

/-- Claim C3 counterexample: for a non-empty timestamp string that fails to
parse (`datetime.fromisoformat` raises on `"not-a-date"`, modelled by a
parser rejecting it), the rendered footer is the raw string itself — the
`except` branch returns `ts or "unknown"`, and a non-empty `ts` is truthy —
not the literal `"unknown"` the claim requires. -/
theorem embed_footer_unparsable_not_unknown :
    embed_footer (fun _ => (none : Option Unit)) (fun _ => "unused")
      { id := some 1, datetime := some "not-a-date" } = "not-a-date"
    ∧ ("not-a-date" : String) ≠ "unknown" :=
  ⟨rfl, by decide⟩

/-- Claim C3 as amended: the footer shows the formatted
Europe/Amsterdam-converted timestamp when the timestamp parses, the literal
`"unknown"` when the timestamp field is missing or the empty string, and
the raw timestamp string itself when it is non-empty but unparsable.
`fromiso` models `datetime.fromisoformat`, `fmtAms` the
`astimezone(ZoneInfo("Europe/Amsterdam")).strftime(...)` composite. -/
theorem embed_footer_characterization {α : Type} (fromiso : String → Option α)
    (fmtAms : α → String) (r : Record) :
    (r.datetime = none → embed_footer fromiso fmtAms r = "unknown")
    ∧ (r.datetime = some "" → embed_footer fromiso fmtAms r = "unknown")
    ∧ (∀ s dt, r.datetime = some s → s ≠ "" →
        fromiso (s.replace "Z" "+00:00") = some dt →
        embed_footer fromiso fmtAms r = fmtAms dt)
    ∧ (∀ s, r.datetime = some s → s ≠ "" →
        fromiso (s.replace "Z" "+00:00") = none →
        embed_footer fromiso fmtAms r = s) := by
  refine ⟨?_, ?_, ?_, ?_⟩
  · intro h
    simp [embed_footer, when_str, h]
  · intro h
    simp [embed_footer, when_str, h]
  · intro s dt hs hne hp
    simp [embed_footer, when_str, hs, hne, hp]
  · intro s hs hne hp
    simp [embed_footer, when_str, hs, hne, hp]

/-- Witness for the amended C3: a parsable timestamp renders through the
timezone formatter. -/
theorem embed_footer_characterization_witness :
    embed_footer (fun _ => some ()) (fun _ => "2024-01-01 11:00:00 CET")
      { id := none, datetime := some "2024-01-01T10:00:00Z" } =
      "2024-01-01 11:00:00 CET" :=
  (embed_footer_characterization (fun _ => some ())
      (fun _ => "2024-01-01 11:00:00 CET")
      { id := none, datetime := some "2024-01-01T10:00:00Z" }).2.2.1
    "2024-01-01T10:00:00Z" () rfl (by decide) rfl

/-- Claim C4: a feed whose fetch yields a transport error, a non-200
status, or an unparsable body produces no notification and leaves its
cursor entry unchanged, and the rest of the cycle proceeds exactly as if
the feed were absent. -/
theorem failed_fetch_skips_feed_only (st : StateMap) (pre post : List FeedInput)
    (fi : FeedInput) (h : fetch_failed fi.fetch = true) :
    monitor_cycle st (pre ++ fi :: post) = monitor_cycle st (pre ++ post) :=
  monitor_cycle_skips_failed fi h pre st post

/-- Witness for C4: a 500 response on the second feed drops out of a
two-feed cycle without affecting the first feed's processing. -/
theorem failed_fetch_skips_feed_only_witness :
    monitor_cycle [("Holland", 1)]
      [⟨"Holland", .ok 200 (.parsed [⟨some 2, none⟩]), fun _ => true⟩,
       ⟨"Holland-5v5-next", .ok 500 (.parsed [⟨some 9, none⟩]), fun _ => true⟩] =
    monitor_cycle [("Holland", 1)]
      [⟨"Holland", .ok 200 (.parsed [⟨some 2, none⟩]), fun _ => true⟩] :=
  failed_fetch_skips_feed_only [("Holland", 1)]
    [⟨"Holland", .ok 200 (.parsed [⟨some 2, none⟩]), fun _ => true⟩] []
    ⟨"Holland-5v5-next", .ok 500 (.parsed [⟨some 9, none⟩]), fun _ => true⟩
    (by decide)

/-- Claim C5: `load_state` is total (the embedding needs no partiality):
a failed read/parse returns the empty state, any parsed value whose shape
the `try` body rejects (no `"last_ids"` object) also returns the empty
state, and the empty state maps every configured feed key to 0. -/
theorem load_state_defaults_on_failure :
    load_state none = _empty_state
    ∧ (∀ v, good_shape v = false → load_state (some v) = _empty_state)
    ∧ (∀ k ∈ SOURCES_keys, alistGet empty_last_ids k = some (.jint 0)) := by
  refine ⟨rfl, fun v h => load_state_not_good v h, ?_⟩
  intro k hk
  simp only [SOURCES_keys, List.mem_cons, List.not_mem_nil, or_false] at hk
  rcases hk with rfl | rfl <;> rfl

/-- Witness for C5: a bare integer file and a file missing `"last_ids"`
both come back as the all-zero state, whose `"Holland"` entry is 0. -/
theorem load_state_defaults_on_failure_witness :
    load_state (some (.jint 3)) = _empty_state
    ∧ load_state (some (.jobj [("foo", .jstr "bar")])) = _empty_state
    ∧ alistGet empty_last_ids "Holland" = some (.jint 0) :=
  ⟨load_state_defaults_on_failure.2.1 (.jint 3) rfl,
   load_state_defaults_on_failure.2.1 (.jobj [("foo", .jstr "bar")]) rfl,
   load_state_defaults_on_failure.2.2 "Holland" (by simp [SOURCES_keys])⟩

/-- Claim C6: no step of a polling cycle ever decreases a feed's cursor
entry, including cycles with failed fetches and notification attempts that
raise: every entry of the final `last_ids` map is at least its initial
value. -/
theorem monitor_cycle_cursor_nondecreasing (st : StateMap)
    (feeds : List FeedInput) (k : String) :
    alistGetD st k 0 ≤ alistGetD (monitor_cycle st feeds).1 k 0 :=
  monitor_cycle_mono feeds st k

/-- Claim C7: identifier-based image resolution (uncached, non-empty id)
tries exactly the four candidate URLs — two base domains crossed with the
extensions png then webp, in source order — and returns the first whose
probe answers HTTP 200 with a content-type containing "image" or equal to
"application/octet-stream", the returned URL being the probe's final
post-redirect URL `r.url`; `none` if no candidate passes. -/
theorem resolve_image_id_four_candidates (net : String → Option ProbeResp)
    (cache : List (String × String)) (i : String) (hne : i ≠ "")
    (hmiss : alistGet cache i = none) :
    (resolve_image_id net cache (some i)).1 =
      [ "https://virtualprogaming.com/media/" ++ i ++ ".png"
      , "https://virtualprogaming.com/media/" ++ i ++ ".webp"
      , "https://api.virtualprogaming.com/public/media/" ++ i ++ ".png"
      , "https://api.virtualprogaming.com/public/media/" ++ i ++ ".webp"
      ].findSome? (fun u =>
        match net u with
        | none => none
        | some r =>
            if r.status == 200 &&
                (strHasSub (pyLower r.contentType) "image" ||
                  pyLower r.contentType == "application/octet-stream") then
              some r.finalUrl
            else none) := by
  rw [resolve_image_id_fst net cache i hne hmiss]
  have h1 := probe_image_of_ne net ("https://virtualprogaming.com/media/" ++ i ++ ".png")
    (append3_ne_empty _ i _ (by decide))
  have h2 := probe_image_of_ne net ("https://virtualprogaming.com/media/" ++ i ++ ".webp")
    (append3_ne_empty _ i _ (by decide))
  have h3 := probe_image_of_ne net
    ("https://api.virtualprogaming.com/public/media/" ++ i ++ ".png")
    (append3_ne_empty _ i _ (by decide))
  have h4 := probe_image_of_ne net
    ("https://api.virtualprogaming.com/public/media/" ++ i ++ ".webp")
    (append3_ne_empty _ i _ (by decide))
  simp only [candidate_urls, List.findSome?_cons, List.findSome?_nil, h1, h2, h3, h4]

/-- Witness for C7: with the example backend, the first candidate answers
404, the third passes (an upper-cased image content-type), and the resolved
URL is the redirect target, not the probed candidate. -/
theorem resolve_image_id_four_candidates_witness :
    (resolve_image_id probe_net_example [] (some "abc")).1 =
      some "https://cdn.example/final.png" := by
  rw [resolve_image_id_four_candidates probe_net_example [] "abc" (by decide) rfl]
  decide

/-- Claim C8: for a well-formed persisted cursor file (a `"last_ids"`
object already carrying every configured feed key), saving the loaded
state writes back exactly the original content. -/
theorem save_load_roundtrip (v : JVal) (h : well_formed v = true) :
    save_state (load_state (some v)) = v := by
  obtain ⟨m, inner, rfl, hg, hall⟩ := exists_of_well_formed v h
  show load_state (some (.jobj m)) = .jobj m
  rw [load_state_good m inner hg, setdefault_all_of_all_has _ _ hall,
    alistSet_of_get_eq m _ _ hg]

/-- Witness for C8: a populated two-feed state file round-trips
unchanged. -/
theorem save_load_roundtrip_witness :
    save_state (load_state (some (.jobj [("last_ids",
        .jobj [("Holland", .jint 42), ("Holland-5v5-next", .jint 7)])]))) =
      .jobj [("last_ids",
        .jobj [("Holland", .jint 42), ("Holland-5v5-next", .jint 7)])] :=
  save_load_roundtrip _ rfl

/-- Claim C9: every value `load_state` returns — read failure or not —
carries a `"last_ids"` object with an entry for every configured feed key,
and a parsed file that omits a configured key gets that key completed with
a 0 entry. -/
theorem load_state_completes_keys :
    (∀ input, ∀ k ∈ SOURCES_keys,
      (state_last_ids (load_state input)).map (fun inner => alistHas inner k) =
        some true)
    ∧ (∀ (m inner : List (String × JVal)) (k : String),
        alistGet m "last_ids" = some (.jobj inner) → k ∈ SOURCES_keys →
        alistGet inner k = none →
        (state_last_ids (load_state (some (.jobj m)))).map
          (fun i => alistGet i k) = some (some (.jint 0))) := by
  constructor
  · intro input k hk
    have hempty : (state_last_ids _empty_state).map
        (fun inner => alistHas inner k) = some true := by
      simp only [SOURCES_keys, List.mem_cons, List.not_mem_nil, or_false] at hk
      rcases hk with rfl | rfl <;> rfl
    match input with
    | none => exact hempty
    | some v =>
        cases hgs : good_shape v with
        | false => rw [load_state_not_good v hgs]; exact hempty
        | true =>
            obtain ⟨m, inner, rfl, hg⟩ := exists_of_good_shape v hgs
            rw [load_state_good m inner hg]
            simp [state_last_ids, alistGet_set_self,
              setdefault_all_has SOURCES_keys inner k hk]
  · intro m inner k hg hk hnone
    rw [load_state_good m inner hg]
    simp [state_last_ids, alistGet_set_self,
      setdefault_all_get_of_none SOURCES_keys inner k hk hnone]

/-- Witness for C9: the failure state carries a `"Holland"` entry, and a
parsed file with an empty `"last_ids"` object gets `"Holland-5v5-next"`
completed with 0. -/
theorem load_state_completes_keys_witness :
    (state_last_ids (load_state none)).map
      (fun inner => alistHas inner "Holland") = some true
    ∧ (state_last_ids (load_state (some (.jobj [("last_ids", .jobj [])])))).map
        (fun i => alistGet i "Holland-5v5-next") = some (some (.jint 0)) :=
  ⟨load_state_completes_keys.1 none "Holland" (by simp [SOURCES_keys]),
   load_state_completes_keys.2 [("last_ids", .jobj [])] [] "Holland-5v5-next"
     rfl (by simp [SOURCES_keys]) rfl⟩

/-- Claim C10: the image caches are written only on successful resolution:
whenever identifier-based or slug-based resolution returns nothing, the
corresponding cache comes back exactly as it went in (no negative entries),
for every probe backend, page backend, and regex-extraction outcome. -/
theorem caches_unchanged_on_failure (net : String → Option ProbeResp)
    (pageNet : String → PageFetch)
    (ogSearch mediaSearch : String → Option String)
    (icache lcache : List (String × String)) (image_id slug : Option String) :
    ((resolve_image_id net icache image_id).1 = none →
      (resolve_image_id net icache image_id).2 = icache)
    ∧ ((fetch_logo_from_slug net pageNet ogSearch mediaSearch lcache slug).1 =
        none →
      (fetch_logo_from_slug net pageNet ogSearch mediaSearch lcache slug).2 =
        lcache) := by
  constructor
  · match image_id with
    | none => simp [resolve_image_id]
    | some i =>
        by_cases hi : i = ""
        · simp [resolve_image_id, hi]
        · rcases hc : alistGet icache i with _ | v
          · rcases hfs : (candidate_urls i).findSome?
                (fun u => probe_image net (some u)) with _ | ok <;>
              simp [resolve_image_id, hi, hc, hfs]
          · simp [resolve_image_id, hi, hc]
  · match slug with
    | none => simp [fetch_logo_from_slug]
    | some sl =>
        by_cases hs : sl = ""
        · simp [fetch_logo_from_slug, hs]
        · rcases hc : alistGet lcache sl with _ | v
          · rcases hp : pageNet ("https://virtualprogaming.com/team/" ++ sl)
                with _ | ⟨status, html⟩
            · simp [fetch_logo_from_slug, hs, hc, hp]
            · by_cases h200 : status = 200
              · have hmedia : (slug_media_step net mediaSearch lcache sl html).1 =
                    none → (slug_media_step net mediaSearch lcache sl html).2 =
                      lcache := by
                  rcases hm : mediaSearch html with _ | u
                  · simp [slug_media_step, hm]
                  · rcases hpm : probe_image net (some u) with _ | ok <;>
                      simp [slug_media_step, hm, hpm]
                rcases ho : ogSearch html with _ | og
                · simpa [fetch_logo_from_slug, hs, hc, hp, h200, ho] using hmedia
                · rcases hpo : probe_image net (some og) with _ | ok
                  · simpa [fetch_logo_from_slug, hs, hc, hp, h200, ho, hpo]
                      using hmedia
                  · simp [fetch_logo_from_slug, hs, hc, hp, h200, ho, hpo]
              · simp [fetch_logo_from_slug, hs, hc, hp, h200]
          · simp [fetch_logo_from_slug, hs, hc]

/-- Witness for C10: a probe backend that always times out resolves
nothing and leaves both caches empty (here the page fetch even succeeds
and both regex extractions produce candidates, which all fail the
probe). -/
theorem caches_unchanged_on_failure_witness :
    (resolve_image_id (fun _ => none) [] (some "x")).2 = []
    ∧ (fetch_logo_from_slug (fun _ => none) (fun _ => .ok 200 "html")
        (fun _ => some "u") (fun _ => some "v") [] (some "t")).2 = [] :=
  ⟨(caches_unchanged_on_failure (fun _ => none) (fun _ => .ok 200 "html")
      (fun _ => some "u") (fun _ => some "v") [] [] (some "x") (some "t")).1 rfl,
   (caches_unchanged_on_failure (fun _ => none) (fun _ => .ok 200 "html")
      (fun _ => some "u") (fun _ => some "v") [] [] (some "x") (some "t")).2 rfl⟩

end VpgBot
